import Mathlib

/-!
Verification of the Blob-ECS sparse-set component storage engine.

Shallow embedding of `src/Component.hpp`, `src/Registry.hpp` and
`src/Errors.hpp`:

* `ECS.PoolState` models the state of a `ComponentPool<T>`
  (`m_data.dense_components`, `m_data.sparse`, `m_cached_entities`,
  `m_cache_dirty`).  C++ `std::vector`s become Lean `List`s; the machine
  integers (`EntityID = uint32_t`, sparse indices `uint32_t`) become `Nat`,
  with the absent marker `NULL_INDEX = 2^32 - 1` kept at its concrete
  `uint32_t` value.  Out-of-range vector accesses are undefined behaviour in
  the C++; the embedding totalises them with `List.getD` (reads yield a
  default, `List.set` out of range is a no-op) and every theorem that relies
  on sane indices carries the `WFPool` well-formedness hypothesis satisfied
  by all states the API can reach.
* `ECS.RegistryState` models `Registry` (`m_pool_list`, an array of
  `UINT16_MAX` pool pointers, absent slots being `nullptr`).
* `ECS.AllocState`/`ECS.idOf` model `ComponentTypeId::get<T>`: the
  process-wide `std::atomic<uint16_t> runtime_counter` together with the
  per-type memoised `static const uint16_t id`.  Distinct C++ types are
  represented by distinct `Nat` tokens; the memo list plays the role of the
  per-type static initialisation.  The `uint16_t` counter wraps modulo
  `2^16`, which the model keeps.
* Functions that `throw` become functions into `Except Err`; returning
  `.error` leaves the caller's state untouched, exactly as the C++ throw
  does (both throw sites fire before any mutation).
-/

set_option linter.unusedVariables false
set_option linter.unusedSectionVars false

namespace ECS

/-- Error taxonomy of `src/Errors.hpp`; each constructor carries the data the
C++ exception constructor receives (entity id and/or `typeid(T).name()`). -/
inductive Err : Type where
  | unregisteredComponent (compname : String)
  | invalidEntityID (id : Nat)
  | componentNotAttached (entity : Nat) (comp_name : String)
  | componentAlreadyAttached (entity : Nat) (comp_name : String)
  deriving DecidableEq, Repr

/-- `constexpr uint32_t NULL_INDEX = std::numeric_limits<uint32_t>::max()`. -/
def NULL_INDEX : Nat := 4294967295

/-- `DenseComponent<T>`: a packed cell holding a component value and the
entity that owns it. -/
structure DenseComponent (α : Type) : Type where
  component : α
  entity : Nat
  deriving DecidableEq, Repr

/-- State of a `ComponentPool<T>`: the sparse-set data
(`m_data.dense_components`, `m_data.sparse`) plus the cached entity list and
its dirty flag. -/
structure PoolState (α : Type) : Type where
  dense : List (DenseComponent α)
  sparse : List Nat
  cached : List Nat
  dirty : Bool
  deriving DecidableEq, Repr

variable {α : Type} [Inhabited α]

/-- Fallback record used to totalise the C++ unchecked vector reads. -/
def dfltRec : DenseComponent α := ⟨default, 0⟩

/-- A freshly constructed pool: empty vectors, `m_cache_dirty(true)`
(the `reserve` calls do not change `size()`). -/
def emptyPool : PoolState α := ⟨[], [], [], true⟩

/-- `hasComponent(e)`: `e < m_data.sparse.size() && m_data.sparse[e] != NULL_INDEX`. -/
def hasComponent (s : PoolState α) (e : Nat) : Bool :=
  decide (e < s.sparse.length) && decide (s.sparse.getD e 0 ≠ NULL_INDEX)

/-- The `while (curr_size <= new_standard) curr_size <<= 1;` loop of
`sparseGrow`.  The source only runs it with `curr_size > 0`; the `0 < curr`
guard (on which the loop would not terminate, since `0 << 1 == 0`) makes the
recursion well founded without changing the behaviour at any reachable
input. -/
def growLoop (curr new_standard : Nat) : Nat :=
  if h : curr ≤ new_standard ∧ 0 < curr then growLoop (curr * 2) new_standard
  else curr
termination_by new_standard + 1 - curr
decreasing_by
  omega

/-- The size chosen by `ComponentPool::sparseGrow`: an empty sparse array
jumps to the fixed floor `8192`; otherwise the current size doubles while it
is `≤ new_standard`. -/
def sparseGrowSize (curr_size new_standard : Nat) : Nat :=
  if curr_size = 0 then 8192
  else growLoop curr_size new_standard

/-- `std::vector::resize(n, v)`: truncate to `n` elements or pad with copies
of `v`. -/
def vecResize (l : List Nat) (n : Nat) (v : Nat) : List Nat :=
  if n ≤ l.length then l.take n
  else l ++ List.replicate (n - l.length) v

/-- `ComponentPool::sparseGrow(new_standard)`: resize the sparse array to
`sparseGrowSize`, padding new slots with `NULL_INDEX`. -/
def sparseGrow (sparse : List Nat) (new_standard : Nat) : List Nat :=
  vecResize sparse (sparseGrowSize sparse.length new_standard) NULL_INDEX

/-- `ComponentPool::addComponent(e)`.  Throws `ComponentAlreadyAttached`
when `hasComponent(e)` (before any mutation).  Otherwise grows the sparse
array when `e >= sparse.size()`, appends a value-initialised record whose
`entity` field is then set to `e` (collapsed here to appending the record
`⟨default, e⟩` at index `dense.length` directly), stores the new dense index
at `sparse[e]` and marks the cache dirty.  `tyName` stands for
`typeid(T).name()`. -/
def addComponent (s : PoolState α) (e : Nat) (tyName : String) :
    Except Err (PoolState α) :=
  if hasComponent s e then .error (.componentAlreadyAttached e tyName)
  else
    let sp := if s.sparse.length ≤ e then sparseGrow s.sparse e else s.sparse
    let new_dense_index := s.dense.length
    .ok { dense := s.dense ++ [⟨default, e⟩]
          sparse := sp.set e new_dense_index
          cached := s.cached
          dirty := true }

/-- `ComponentPool::removeComponent(e)`: no-op when `!hasComponent(e)`;
otherwise swap-remove.  When the removed record is not the last one, the
last record is moved into its slot and the moved entity's sparse entry is
fixed up before `sparse[e]` is set to `NULL_INDEX` and the dense array
shrinks by one.  (`last_index = size() - 1` is natural subtraction here;
the C++ only evaluates it with a nonempty dense array on reachable
states.) -/
def removeComponent (s : PoolState α) (e : Nat) : PoolState α :=
  if hasComponent s e then
    let dense_index := s.sparse.getD e 0
    let last_index := s.dense.length - 1
    if dense_index ≠ last_index then
      let dense1 := s.dense.set dense_index (s.dense.getD last_index dfltRec)
      let moved_entity := (dense1.getD dense_index dfltRec).entity
      { dense := dense1.dropLast
        sparse := (s.sparse.set moved_entity dense_index).set e NULL_INDEX
        cached := s.cached
        dirty := true }
    else
      { dense := s.dense.dropLast
        sparse := s.sparse.set e NULL_INDEX
        cached := s.cached
        dirty := true }
  else s

/-- `ComponentPool::getComponent(e)`: the unchecked read
`m_data.dense_components[m_data.sparse[e]].component`. -/
def getComponent (s : PoolState α) (e : Nat) : α :=
  (s.dense.getD (s.sparse.getD e 0) dfltRec).component

/-- `ComponentPool::disableEntity(e)` is an alias for `removeComponent(e)`. -/
def disableEntity (s : PoolState α) (e : Nat) : PoolState α :=
  removeComponent s e

/-- The entity-id projection of the dense array, ascending-sorted.  The
source line `m_cached_entities = m_data.dense_components;` is ill-typed
(it assigns a `std::vector<DenseComponent<T>>` to the
`std::vector<EntityID>` member, and `std::sort` is then applied to records
that have no `operator<`), so `getActiveEntities` cannot be embedded as
written; this definition captures the behaviour its documentation and the
spec describe: copy the ids of the dense records and sort them ascending. -/
def rebuiltCacheIntended (s : PoolState α) : List Nat :=
  (s.dense.map (fun r => r.entity)).mergeSort (fun a b => a ≤ b)

/-- Intended `ComponentPool::getActiveEntities()`: rebuild the cache when
dirty, then return it (see `rebuiltCacheIntended` for why this is the
intended rather than the literal code). -/
def getActiveEntitiesIntended (s : PoolState α) : List Nat × PoolState α :=
  if s.dirty then
    (rebuiltCacheIntended s, { s with cached := rebuiltCacheIntended s, dirty := false })
  else (s.cached, s)

/-- `UINT16_MAX`, the length of `Registry::m_pool_list`. -/
def UINT16_MAX : Nat := 65535

/-- State of a `Registry`: `IComponentPool *m_pool_list[UINT16_MAX]{nullptr}`,
a fixed array of owned pool pointers, `none` standing for `nullptr`.  The
pools are modelled at a single component type `α`; the claims about the
registry do not depend on the per-slot component types.  (An index read past
the array end — only reachable for the 65536th distinct TypeId, 65535 —
would be out of bounds in the C++; `List.getD` totalises it to `none`.) -/
structure RegistryState (α : Type) : Type where
  pool_list : List (Option (PoolState α))
  deriving DecidableEq, Repr

/-- A freshly constructed `Registry`: every slot `nullptr`. -/
def emptyRegistry : RegistryState α := ⟨List.replicate UINT16_MAX none⟩

/-- `Registry::componentExists(type_id)`: `m_pool_list[type_id] != nullptr`. -/
def componentExists (r : RegistryState α) (type_id : Nat) : Bool :=
  (r.pool_list.getD type_id none).isSome

/-- `Registry::registerComponent<T>()`: returns `false` leaving the state
unchanged when the slot is occupied, otherwise stores a newly constructed
empty pool at `T`'s TypeId slot and returns `true`.  The TypeId itself comes
from `ComponentTypeId::get<T>` (modelled by `idOf` below); here it is the
`type_id` argument. -/
def registerComponent (r : RegistryState α) (type_id : Nat) :
    Bool × RegistryState α :=
  if componentExists r type_id then (false, r)
  else (true, ⟨r.pool_list.set type_id (some emptyPool)⟩)

/-- `Registry::getPool<T>()`: throws `UnregisteredComponent(typeid(T).name())`
when the slot is empty, otherwise returns the pool stored at `T`'s slot. -/
def getPool (r : RegistryState α) (type_id : Nat) (tyName : String) :
    Except Err (PoolState α) :=
  match r.pool_list.getD type_id none with
  | some p => .ok p
  | none => .error (.unregisteredComponent tyName)

/-- `Registry::disableEntity(e)`: visit every slot in order, skip `nullptr`
slots, and call the virtual `disableEntity(e)` on each occupied pool. -/
def registryDisableEntity (r : RegistryState α) (e : Nat) : RegistryState α :=
  ⟨r.pool_list.map (fun slot =>
    match slot with
    | some p => some (disableEntity p e)
    | none => none)⟩

/-- Modulus of the `std::atomic<uint16_t> runtime_counter`. -/
def UINT16_MOD : Nat := 65536

/-- State of `ComponentTypeId`: the process-wide `uint16_t` counter and the
memo of types already assigned an id (each C++ type's
`static const uint16_t id`).  Types are represented by `Nat` tokens. -/
structure AllocState : Type where
  counter : Nat
  memo : List (Nat × Nat)
  deriving DecidableEq, Repr

/-- Process start: counter `0`, no type initialised yet. -/
def allocStart : AllocState := ⟨0, []⟩

/-- `ComponentTypeId::get<T>()`: the first call for a type reserves the
current counter value (`fetch_add(1)` returns the old value and wraps the
stored counter modulo `2^16`) and memoises it; later calls return the
memoised id and leave the state untouched. -/
def idOf (s : AllocState) (t : Nat) : Nat × AllocState :=
  match s.memo.lookup t with
  | some i => (i, s)
  | none =>
      (s.counter, ⟨(s.counter + 1) % UINT16_MOD, (t, s.counter) :: s.memo⟩)

/-- Run `idOf` over a list of type-requests from process start, keeping only
the final allocator state. -/
def runReqs (reqs : List Nat) : AllocState :=
  reqs.foldl (fun s t => (idOf s t).2) allocStart

/-- Well-formedness of a pool state, satisfied by every state reachable
through the pool's API (with in-range ids): the sparse→dense and
dense→sparse directions of the bidirectional invariant, plus the fact that
the dense size fits the `uint32_t` index space. -/
def WFPool (s : PoolState α) : Prop :=
  (∀ e, e < s.sparse.length → s.sparse.getD e 0 ≠ NULL_INDEX →
    s.sparse.getD e 0 < s.dense.length ∧
      (s.dense.getD (s.sparse.getD e 0) dfltRec).entity = e) ∧
  (∀ i, i < s.dense.length →
    (s.dense.getD i dfltRec).entity < s.sparse.length ∧
      s.sparse.getD (s.dense.getD i dfltRec).entity 0 = i) ∧
  s.dense.length < NULL_INDEX

instance (s : PoolState α) : Decidable (WFPool s) := by
  unfold WFPool
  infer_instance

section ListHelpers

variable {β : Type}

theorem getD_set_self {l : List β} {n : Nat} (a d : β) (h : n < l.length) :
    (l.set n a).getD n d = a := by
  rw [List.getD_eq_getElem _ _ (by simpa using h)]
  simp [List.getElem_set, h]

theorem getD_set_ne {l : List β} {m n : Nat} (a d : β) (h : m ≠ n) :
    (l.set n a).getD m d = l.getD m d := by
  rw [List.getD_eq_getElem?_getD, List.getD_eq_getElem?_getD,
    List.getElem?_set_ne (fun hnm => h hnm.symm)]

theorem getD_replicate {n k : Nat} (v d : β) (h : n < k) :
    (List.replicate k v).getD n d = v := by
  rw [List.getD_eq_getElem _ _ (by simpa using h)]
  simp

theorem getD_append_last {l : List β} (a d : β) :
    (l ++ [a]).getD l.length d = a := by
  rw [List.getD_append_right _ _ _ _ (Nat.le_refl _)]
  simp

theorem getD_dropLast {l : List β} {n : Nat} (d : β) (h : n < l.length - 1) :
    l.dropLast.getD n d = l.getD n d := by
  rw [List.getD_eq_getElem _ _ (by simpa using h),
    List.getD_eq_getElem _ _ (by omega)]
  rw [List.getElem_dropLast]

end ListHelpers

section GrowHelpers

theorem le_growLoop (curr e : Nat) : curr ≤ growLoop curr e := by
  induction curr, e using growLoop.induct with
  | case1 curr e h ih =>
      rw [growLoop, dif_pos h]
      omega
  | case2 curr e h =>
      rw [growLoop, dif_neg h]

theorem growLoop_gt {curr : Nat} (e : Nat) (hc : 0 < curr) : e < growLoop curr e := by
  induction curr, e using growLoop.induct with
  | case1 curr e h ih =>
      rw [growLoop, dif_pos h]
      exact ih (by omega)
  | case2 curr e h =>
      rw [growLoop, dif_neg h]
      omega

theorem le_sparseGrowSize (curr e : Nat) : curr ≤ sparseGrowSize curr e := by
  unfold sparseGrowSize
  by_cases h : curr = 0
  · simp [h]
  · simp only [h, if_false]
    exact le_growLoop curr e

theorem lt_sparseGrowSize {curr e : Nat} (h : e < 8192 ∨ curr ≠ 0) :
    e < sparseGrowSize curr e := by
  unfold sparseGrowSize
  by_cases hc : curr = 0
  · simp only [hc, if_true]
    rcases h with h | h
    · exact h
    · exact absurd hc h
  · simp only [hc, if_false]
    exact growLoop_gt e (Nat.pos_of_ne_zero hc)

theorem vecResize_length {l : List Nat} {n : Nat} (v : Nat) (h : l.length ≤ n) :
    (vecResize l n v).length = n := by
  unfold vecResize
  by_cases hn : n ≤ l.length
  · simp [hn]
  · simp only [hn, if_false, List.length_append, List.length_replicate]
    omega

theorem vecResize_getD_lt {l : List Nat} {n i : Nat} (v d : Nat)
    (hl : l.length ≤ n) (hi : i < l.length) :
    (vecResize l n v).getD i d = l.getD i d := by
  unfold vecResize
  by_cases hn : n ≤ l.length
  · have : n = l.length := Nat.le_antisymm hn hl
    simp [this]
  · simp only [hn, if_false]
    exact List.getD_append _ _ _ _ hi

theorem vecResize_getD_pad {l : List Nat} {n i : Nat} (v d : Nat)
    (h1 : l.length ≤ i) (h2 : i < n) :
    (vecResize l n v).getD i d = v := by
  unfold vecResize
  by_cases hn : n ≤ l.length
  · omega
  · simp only [hn, if_false]
    rw [List.getD_append_right _ _ _ _ h1]
    exact getD_replicate v d (by omega)

theorem sparseGrow_length {sp : List Nat} (e : Nat) :
    (sparseGrow sp e).length = sparseGrowSize sp.length e := by
  unfold sparseGrow
  exact vecResize_length _ (le_sparseGrowSize _ _)

theorem sparseGrow_getD_lt {sp : List Nat} {e i : Nat} (d : Nat) (hi : i < sp.length) :
    (sparseGrow sp e).getD i d = sp.getD i d := by
  unfold sparseGrow
  exact vecResize_getD_lt _ _ (le_sparseGrowSize _ _) hi

theorem sparseGrow_getD_pad {sp : List Nat} {e i : Nat} (d : Nat)
    (h1 : sp.length ≤ i) (h2 : i < sparseGrowSize sp.length e) :
    (sparseGrow sp e).getD i d = NULL_INDEX := by
  unfold sparseGrow
  exact vecResize_getD_pad _ _ h1 h2

end GrowHelpers

section OpHelpers

theorem hasComponent_true_iff (s : PoolState α) (e : Nat) :
    hasComponent s e = true ↔
      e < s.sparse.length ∧ s.sparse.getD e 0 ≠ NULL_INDEX := by
  simp [hasComponent]

theorem hasComponent_false_iff (s : PoolState α) (e : Nat) :
    hasComponent s e = false ↔
      ¬(e < s.sparse.length ∧ s.sparse.getD e 0 ≠ NULL_INDEX) := by
  rw [← Bool.not_eq_true, hasComponent_true_iff]

theorem addComponent_of_has {s : PoolState α} {e : Nat} (tyName : String)
    (h : hasComponent s e = true) :
    addComponent s e tyName = .error (.componentAlreadyAttached e tyName) := by
  unfold addComponent
  rw [if_pos h]

theorem addComponent_of_not_has {s : PoolState α} {e : Nat} (tyName : String)
    (h : hasComponent s e = false) :
    addComponent s e tyName =
      .ok { dense := s.dense ++ [⟨default, e⟩]
            sparse := (if s.sparse.length ≤ e then sparseGrow s.sparse e
                       else s.sparse).set e s.dense.length
            cached := s.cached
            dirty := true } := by
  unfold addComponent
  rw [if_neg (by simp [h])]

theorem addComponent_eq_ok {s s' : PoolState α} {e : Nat} {tyName : String}
    (h : addComponent s e tyName = .ok s') :
    hasComponent s e = false ∧
      s' = { dense := s.dense ++ [⟨default, e⟩]
             sparse := (if s.sparse.length ≤ e then sparseGrow s.sparse e
                        else s.sparse).set e s.dense.length
             cached := s.cached
             dirty := true } := by
  by_cases hc : hasComponent s e
  · rw [addComponent_of_has tyName hc] at h
    exact absurd h (by simp)
  · have hc' : hasComponent s e = false := by simpa using hc
    rw [addComponent_of_not_has tyName hc'] at h
    exact ⟨hc', (Except.ok.injEq _ _ ▸ h).symm⟩

theorem removeComponent_of_not_has {s : PoolState α} {e : Nat}
    (h : hasComponent s e = false) :
    removeComponent s e = s := by
  unfold removeComponent
  rw [if_neg (by simp [h])]

theorem removeComponent_of_has_swap {s : PoolState α} {e : Nat}
    (h : hasComponent s e = true)
    (hne : s.sparse.getD e 0 ≠ s.dense.length - 1) :
    removeComponent s e =
      { dense := (s.dense.set (s.sparse.getD e 0)
          (s.dense.getD (s.dense.length - 1) dfltRec)).dropLast
        sparse := (s.sparse.set
            ((s.dense.set (s.sparse.getD e 0)
              (s.dense.getD (s.dense.length - 1) dfltRec)).getD
                (s.sparse.getD e 0) dfltRec).entity
            (s.sparse.getD e 0)).set e NULL_INDEX
        cached := s.cached
        dirty := true } := by
  unfold removeComponent
  rw [if_pos h, if_pos hne]

theorem removeComponent_of_has_last {s : PoolState α} {e : Nat}
    (h : hasComponent s e = true)
    (heq : s.sparse.getD e 0 = s.dense.length - 1) :
    removeComponent s e =
      { dense := s.dense.dropLast
        sparse := s.sparse.set e NULL_INDEX
        cached := s.cached
        dirty := true } := by
  unfold removeComponent
  rw [if_pos h]
  simp only [heq, ne_eq, not_true_eq_false, ite_false]

theorem hasComponent_removeComponent_self (s : PoolState α) (e : Nat) :
    hasComponent (removeComponent s e) e = false := by
  by_cases h : hasComponent s e = true
  · have he : e < s.sparse.length := ((hasComponent_true_iff s e).mp h).1
    by_cases hne : s.sparse.getD e 0 ≠ s.dense.length - 1
    · rw [removeComponent_of_has_swap h hne]
      rw [hasComponent_false_iff]
      intro hcon
      apply hcon.2
      exact getD_set_self _ _ (by simpa using he)
    · rw [removeComponent_of_has_last h (by simpa using hne)]
      rw [hasComponent_false_iff]
      intro hcon
      apply hcon.2
      exact getD_set_self _ _ (by simpa using he)
  · have h' : hasComponent s e = false := by simpa using h
    rw [removeComponent_of_not_has h']
    exact h'

end OpHelpers

section WFHelpers

theorem wf_emptyPool : WFPool (emptyPool : PoolState α) := by
  refine ⟨?_, ?_, ?_⟩ <;> simp [emptyPool, NULL_INDEX]

theorem length_le_sparse_after_grow (s : PoolState α) (e : Nat) :
    s.sparse.length ≤
      (if s.sparse.length ≤ e then sparseGrow s.sparse e else s.sparse).length := by
  by_cases h : s.sparse.length ≤ e
  · rw [if_pos h, sparseGrow_length]
    exact le_sparseGrowSize _ _
  · rw [if_neg h]

theorem grown_getD_lt {s : PoolState α} {e i : Nat} (d : Nat) (hi : i < s.sparse.length) :
    (if s.sparse.length ≤ e then sparseGrow s.sparse e else s.sparse).getD i d =
      s.sparse.getD i d := by
  by_cases h : s.sparse.length ≤ e
  · rw [if_pos h]
    exact sparseGrow_getD_lt d hi
  · rw [if_neg h]

theorem grown_getD_pad {s : PoolState α} {e i : Nat} (h1 : s.sparse.length ≤ i)
    (h2 : i < (if s.sparse.length ≤ e then sparseGrow s.sparse e else s.sparse).length) :
    (if s.sparse.length ≤ e then sparseGrow s.sparse e else s.sparse).getD i 0 =
      NULL_INDEX := by
  by_cases h : s.sparse.length ≤ e
  · rw [if_pos h]
    rw [if_pos h, sparseGrow_length] at h2
    exact sparseGrow_getD_pad 0 h1 h2
  · rw [if_neg h] at h2
    omega

theorem e_lt_grown_length {s : PoolState α} {e : Nat}
    (hb : e < 8192 ∨ s.sparse.length ≠ 0) :
    e < (if s.sparse.length ≤ e then sparseGrow s.sparse e else s.sparse).length := by
  by_cases h : s.sparse.length ≤ e
  · rw [if_pos h, sparseGrow_length]
    exact lt_sparseGrowSize hb
  · rw [if_neg h]
    omega

theorem wf_addComponent {s s' : PoolState α} {e : Nat} {tyName : String}
    (hwf : WFPool s) (hb : e < 8192 ∨ s.sparse.length ≠ 0)
    (hroom : s.dense.length + 1 < NULL_INDEX)
    (hok : addComponent s e tyName = .ok s') : WFPool s' := by
  obtain ⟨hnot, hs'⟩ := addComponent_eq_ok hok
  have hd : s'.dense = s.dense ++ [⟨default, e⟩] := by rw [hs']
  have hsp : s'.sparse =
      (if s.sparse.length ≤ e then sparseGrow s.sparse e else s.sparse).set
        e s.dense.length := by rw [hs']
  obtain ⟨hw1, hw2, _⟩ := hwf
  have hlen1 : s.sparse.length ≤
      (if s.sparse.length ≤ e then sparseGrow s.sparse e else s.sparse).length :=
    length_le_sparse_after_grow s e
  have he1 : e <
      (if s.sparse.length ≤ e then sparseGrow s.sparse e else s.sparse).length :=
    e_lt_grown_length hb
  refine ⟨?_, ?_, ?_⟩
  · -- sparse → dense direction
    intro x hx hnn
    rw [hsp] at hx hnn ⊢
    rw [hd]
    simp only [List.length_set] at hx
    by_cases hxe : x = e
    · subst hxe
      rw [getD_set_self _ _ he1]
      constructor
      · simp
      · rw [getD_append_last _ _]
    · rw [getD_set_ne _ _ hxe] at hnn ⊢
      have hxlt : x < s.sparse.length := by
        by_contra hcon
        exact hnn (grown_getD_pad (by omega) hx)
      rw [grown_getD_lt 0 hxlt] at hnn ⊢
      obtain ⟨h1, h2⟩ := hw1 x hxlt hnn
      refine ⟨?_, ?_⟩
      · simp only [List.length_append, List.length_cons, List.length_nil]
        omega
      · rw [List.getD_append _ _ _ _ h1, h2]
  · -- dense → sparse direction
    intro j hj
    rw [hd] at hj ⊢
    rw [hsp]
    simp only [List.length_append, List.length_cons, List.length_nil] at hj
    by_cases hjD : j = s.dense.length
    · subst hjD
      rw [getD_append_last _ _]
      refine ⟨by simpa using he1, ?_⟩
      rw [getD_set_self _ _ he1]
    · have hjlt : j < s.dense.length := by omega
      rw [List.getD_append _ _ _ _ hjlt]
      obtain ⟨h1, h2⟩ := hw2 j hjlt
      have hne : (s.dense.getD j dfltRec).entity ≠ e := by
        intro hcon
        have hht : hasComponent s e = true := by
          rw [hasComponent_true_iff]
          rw [← hcon]
          refine ⟨h1, ?_⟩
          rw [h2]
          omega
        rw [hht] at hnot
        exact absurd hnot (by simp)
      refine ⟨?_, ?_⟩
      · simp only [List.length_set]
        omega
      · rw [getD_set_ne _ _ hne, grown_getD_lt 0 h1, h2]
  · rw [hd]
    simpa using hroom

theorem wf_removeComponent {s : PoolState α} (e : Nat) (hwf : WFPool s) :
    WFPool (removeComponent s e) := by
  obtain ⟨hw1, hw2, hw3⟩ := hwf
  by_cases hc : hasComponent s e = true
  · obtain ⟨he, hv⟩ := (hasComponent_true_iff s e).mp hc
    obtain ⟨hdlt, hde⟩ := hw1 e he hv
    have hpos : 0 < s.dense.length := by omega
    by_cases hdl : s.sparse.getD e 0 = s.dense.length - 1
    · -- removed record is the last dense record: plain pop_back
      have hdn : (removeComponent s e).dense = s.dense.dropLast := by
        rw [removeComponent_of_has_last hc hdl]
      have hsp : (removeComponent s e).sparse = s.sparse.set e NULL_INDEX := by
        rw [removeComponent_of_has_last hc hdl]
      refine ⟨?_, ?_, ?_⟩
      · intro x hx hnn
        rw [hsp] at hx hnn
        rw [hsp, hdn]
        simp only [List.length_set] at hx
        by_cases hxe : x = e
        · subst hxe
          rw [getD_set_self _ _ he] at hnn
          exact absurd rfl hnn
        · rw [getD_set_ne _ _ hxe] at hnn ⊢
          obtain ⟨h1, h2⟩ := hw1 x hx hnn
          have hxne : s.sparse.getD x 0 ≠ s.dense.length - 1 := by
            intro hcon
            apply hxe
            rw [hcon, ← hdl] at h2
            rw [hde] at h2
            exact h2.symm
          refine ⟨?_, ?_⟩
          · simp only [List.length_dropLast]
            omega
          · rw [getD_dropLast _ (by omega), h2]
      · intro j hj
        rw [hdn] at hj ⊢
        rw [hsp]
        simp only [List.length_dropLast] at hj
        have hjlt : j < s.dense.length := by omega
        rw [getD_dropLast _ hj]
        obtain ⟨h1, h2⟩ := hw2 j hjlt
        have hne : (s.dense.getD j dfltRec).entity ≠ e := by
          intro hcon
          rw [hcon, hdl] at h2
          omega
        refine ⟨?_, ?_⟩
        · simp only [List.length_set]
          exact h1
        · rw [getD_set_ne _ _ hne, h2]
      · rw [hdn]
        simp only [List.length_dropLast]
        omega
    · -- swap-remove: the last record moves into the freed slot
      have hm_eq : (s.dense.set (s.sparse.getD e 0)
          (s.dense.getD (s.dense.length - 1) dfltRec)).getD
            (s.sparse.getD e 0) dfltRec =
          s.dense.getD (s.dense.length - 1) dfltRec :=
        getD_set_self _ _ hdlt
      have hdn : (removeComponent s e).dense =
          (s.dense.set (s.sparse.getD e 0)
            (s.dense.getD (s.dense.length - 1) dfltRec)).dropLast := by
        rw [removeComponent_of_has_swap hc hdl]
      have hsp : (removeComponent s e).sparse =
          (s.sparse.set (s.dense.getD (s.dense.length - 1) dfltRec).entity
            (s.sparse.getD e 0)).set e NULL_INDEX := by
        rw [removeComponent_of_has_swap hc hdl, hm_eq]
      obtain ⟨hm1, hm2⟩ := hw2 (s.dense.length - 1) (by omega)
      have hme : (s.dense.getD (s.dense.length - 1) dfltRec).entity ≠ e := by
        intro hcon
        rw [hcon] at hm2
        omega
      have hd_lt : s.sparse.getD e 0 < s.dense.length - 1 := by omega
      refine ⟨?_, ?_, ?_⟩
      · intro x hx hnn
        rw [hsp] at hx hnn
        rw [hsp, hdn]
        simp only [List.length_set] at hx
        by_cases hxe : x = e
        · subst hxe
          rw [getD_set_self _ _ (by simpa only [List.length_set] using he)] at hnn
          exact absurd rfl hnn
        · rw [getD_set_ne _ _ hxe] at hnn ⊢
          by_cases hxm : x = (s.dense.getD (s.dense.length - 1) dfltRec).entity
          · subst hxm
            rw [getD_set_self _ _ hm1] at hnn ⊢
            refine ⟨?_, ?_⟩
            · simp only [List.length_dropLast, List.length_set]
              omega
            · rw [getD_dropLast _ (by simp only [List.length_set]; omega), hm_eq]
          · rw [getD_set_ne _ _ hxm] at hnn ⊢
            obtain ⟨h1, h2⟩ := hw1 x hx hnn
            have hxd : s.sparse.getD x 0 ≠ s.sparse.getD e 0 := by
              intro hcon
              apply hxe
              rw [hcon] at h2
              rw [hde] at h2
              exact h2.symm
            have hxlast : s.sparse.getD x 0 ≠ s.dense.length - 1 := by
              intro hcon
              apply hxm
              rw [hcon] at h2
              exact h2.symm
            refine ⟨?_, ?_⟩
            · simp only [List.length_dropLast, List.length_set]
              omega
            · rw [getD_dropLast _ (by simp only [List.length_set]; omega),
                getD_set_ne _ _ hxd, h2]
      · intro j hj
        rw [hdn] at hj ⊢
        rw [hsp]
        simp only [List.length_dropLast, List.length_set] at hj
        rw [getD_dropLast _ (by simp only [List.length_set]; omega)]
        by_cases hjd : j = s.sparse.getD e 0
        · subst hjd
          rw [hm_eq]
          refine ⟨?_, ?_⟩
          · simp only [List.length_set]
            exact hm1
          · rw [getD_set_ne _ _ hme, getD_set_self _ _ hm1]
        · rw [getD_set_ne _ _ hjd]
          obtain ⟨h1, h2⟩ := hw2 j (by omega)
          have hje : (s.dense.getD j dfltRec).entity ≠ e := by
            intro hcon
            rw [hcon] at h2
            exact hjd h2.symm
          have hjm : (s.dense.getD j dfltRec).entity ≠
              (s.dense.getD (s.dense.length - 1) dfltRec).entity := by
            intro hcon
            rw [hcon, hm2] at h2
            omega
          refine ⟨?_, ?_⟩
          · simp only [List.length_set]
            exact h1
          · rw [getD_set_ne _ _ hje, getD_set_ne _ _ hjm, h2]
      · rw [hdn]
        simp only [List.length_dropLast, List.length_set]
        omega
  · rw [removeComponent_of_not_has (by simpa using hc)]
    exact ⟨hw1, hw2, hw3⟩

theorem add_preserves_other {s s' : PoolState α} {e e' : Nat} {tyName : String}
    (hwf : WFPool s) (hne : e' ≠ e) (hok : addComponent s e tyName = .ok s') :
    hasComponent s' e' = hasComponent s e' ∧
      (hasComponent s e' = true → getComponent s' e' = getComponent s e') := by
  obtain ⟨hnot, hs'⟩ := addComponent_eq_ok hok
  have hd : s'.dense = s.dense ++ [⟨default, e⟩] := by rw [hs']
  have hsp : s'.sparse =
      (if s.sparse.length ≤ e then sparseGrow s.sparse e else s.sparse).set
        e s.dense.length := by rw [hs']
  obtain ⟨hw1, hw2, hw3⟩ := hwf
  constructor
  · unfold hasComponent
    rw [hsp, getD_set_ne _ _ hne]
    simp only [List.length_set]
    by_cases hlt : e' < s.sparse.length
    · rw [grown_getD_lt 0 hlt]
      have hg : e' <
          (if s.sparse.length ≤ e then sparseGrow s.sparse e else s.sparse).length :=
        Nat.lt_of_lt_of_le hlt (length_le_sparse_after_grow s e)
      simp [hlt, hg]
    · by_cases hg : e' <
          (if s.sparse.length ≤ e then sparseGrow s.sparse e else s.sparse).length
      · rw [grown_getD_pad (by omega) hg]
        simp [hlt]
      · simp [hlt, hg]
  · intro hhas
    obtain ⟨hlt, hnn⟩ := (hasComponent_true_iff s e').mp hhas
    obtain ⟨h1, h2⟩ := hw1 e' hlt hnn
    unfold getComponent
    rw [hsp, hd, getD_set_ne _ _ hne, grown_getD_lt 0 hlt,
      List.getD_append _ _ _ _ h1]

theorem remove_preserves_other {s : PoolState α} {e e' : Nat}
    (hwf : WFPool s) (hne : e' ≠ e) :
    hasComponent (removeComponent s e) e' = hasComponent s e' ∧
      (hasComponent s e' = true →
        getComponent (removeComponent s e) e' = getComponent s e') := by
  obtain ⟨hw1, hw2, hw3⟩ := hwf
  by_cases hc : hasComponent s e = true
  · obtain ⟨he, hv⟩ := (hasComponent_true_iff s e).mp hc
    obtain ⟨hdlt, hde⟩ := hw1 e he hv
    have hpos : 0 < s.dense.length := by omega
    by_cases hdl : s.sparse.getD e 0 = s.dense.length - 1
    · have hdn : (removeComponent s e).dense = s.dense.dropLast := by
        rw [removeComponent_of_has_last hc hdl]
      have hsp : (removeComponent s e).sparse = s.sparse.set e NULL_INDEX := by
        rw [removeComponent_of_has_last hc hdl]
      constructor
      · unfold hasComponent
        rw [hsp, getD_set_ne _ _ hne]
        simp only [List.length_set]
      · intro hhas
        obtain ⟨hlt, hnn⟩ := (hasComponent_true_iff s e').mp hhas
        obtain ⟨h1, h2⟩ := hw1 e' hlt hnn
        have hxne : s.sparse.getD e' 0 ≠ s.dense.length - 1 := by
          intro hcon
          apply hne
          rw [hcon, ← hdl] at h2
          rw [hde] at h2
          exact h2.symm
        unfold getComponent
        rw [hsp, hdn, getD_set_ne _ _ hne, getD_dropLast _ (by omega)]
    · have hm_eq : (s.dense.set (s.sparse.getD e 0)
          (s.dense.getD (s.dense.length - 1) dfltRec)).getD
            (s.sparse.getD e 0) dfltRec =
          s.dense.getD (s.dense.length - 1) dfltRec :=
        getD_set_self _ _ hdlt
      have hdn : (removeComponent s e).dense =
          (s.dense.set (s.sparse.getD e 0)
            (s.dense.getD (s.dense.length - 1) dfltRec)).dropLast := by
        rw [removeComponent_of_has_swap hc hdl]
      have hsp : (removeComponent s e).sparse =
          (s.sparse.set (s.dense.getD (s.dense.length - 1) dfltRec).entity
            (s.sparse.getD e 0)).set e NULL_INDEX := by
        rw [removeComponent_of_has_swap hc hdl, hm_eq]
      obtain ⟨hm1, hm2⟩ := hw2 (s.dense.length - 1) (by omega)
      have hme : (s.dense.getD (s.dense.length - 1) dfltRec).entity ≠ e := by
        intro hcon
        rw [hcon] at hm2
        omega
      have hd_lt : s.sparse.getD e 0 < s.dense.length - 1 := by omega
      constructor
      · unfold hasComponent
        rw [hsp, getD_set_ne _ _ hne]
        simp only [List.length_set]
        by_cases hxm : e' = (s.dense.getD (s.dense.length - 1) dfltRec).entity
        · subst hxm
          rw [getD_set_self _ _ hm1, hm2]
          have hA : (decide (s.sparse.getD e 0 ≠ NULL_INDEX)) = true := by
            simp only [decide_eq_true_eq]
            omega
          have hB : (decide (s.dense.length - 1 ≠ NULL_INDEX)) = true := by
            simp only [decide_eq_true_eq]
            omega
          rw [hA, hB]
        · rw [getD_set_ne _ _ hxm]
      · intro hhas
        obtain ⟨hlt, hnn⟩ := (hasComponent_true_iff s e').mp hhas
        obtain ⟨h1, h2⟩ := hw1 e' hlt hnn
        unfold getComponent
        rw [hsp, hdn, getD_set_ne _ _ hne]
        by_cases hxm : e' = (s.dense.getD (s.dense.length - 1) dfltRec).entity
        · subst hxm
          rw [getD_set_self _ _ hm1, hm2]
          rw [getD_dropLast _ (by simp only [List.length_set]; omega), hm_eq]
        · rw [getD_set_ne _ _ hxm]
          have hxd : s.sparse.getD e' 0 ≠ s.sparse.getD e 0 := by
            intro hcon
            apply hne
            rw [hcon] at h2
            rw [hde] at h2
            exact h2.symm
          have hxlast : s.sparse.getD e' 0 ≠ s.dense.length - 1 := by
            intro hcon
            apply hxm
            rw [hcon] at h2
            exact h2.symm
          rw [getD_dropLast _ (by simp only [List.length_set]; omega),
            getD_set_ne _ _ hxd]
  · have hc' : hasComponent s e = false := by simpa using hc
    rw [removeComponent_of_not_has hc']
    exact ⟨rfl, fun _ => rfl⟩

end WFHelpers

section RegistryHelpers

theorem getPool_of_slot {r : RegistryState α} {tid : Nat} {p : PoolState α}
    (tyName : String) (h : r.pool_list.getD tid none = some p) :
    getPool r tid tyName = .ok p := by
  unfold getPool
  rw [h]

theorem getPool_of_empty_slot {r : RegistryState α} {tid : Nat} (tyName : String)
    (h : r.pool_list.getD tid none = none) :
    getPool r tid tyName = .error (.unregisteredComponent tyName) := by
  unfold getPool
  rw [h]

theorem componentExists_iff_slot {r : RegistryState α} {tid : Nat} :
    componentExists r tid = true ↔ ∃ p, r.pool_list.getD tid none = some p := by
  unfold componentExists
  rw [Option.isSome_iff_exists]

theorem componentExists_false_iff_slot {r : RegistryState α} {tid : Nat} :
    componentExists r tid = false ↔ r.pool_list.getD tid none = none := by
  unfold componentExists
  rw [← Option.not_isSome_iff_eq_none]
  cases r.pool_list.getD tid none <;> simp

theorem registryDisable_getD (r : RegistryState α) (e tid : Nat) :
    (registryDisableEntity r e).pool_list.getD tid none =
      (r.pool_list.getD tid none).map (fun p => disableEntity p e) := by
  unfold registryDisableEntity
  rw [List.getD_eq_getElem?_getD, List.getD_eq_getElem?_getD, List.getElem?_map]
  cases hsl : r.pool_list[tid]? with
  | none => rfl
  | some slot => cases slot <;> rfl

end RegistryHelpers

section AllocHelpers

theorem lookup_cons_self {l : List (Nat × Nat)} (t v : Nat) :
    ((t, v) :: l).lookup t = some v := by
  have hb : (t == t) = true := by simp
  simp only [List.lookup, hb]

theorem lookup_cons_ne {l : List (Nat × Nat)} {t k : Nat} (v : Nat)
    (h : t ≠ k) : ((k, v) :: l).lookup t = l.lookup t := by
  have hb : (t == k) = false := by simpa using h
  simp only [List.lookup, hb]

theorem lookup_eq_none_iff {l : List (Nat × Nat)} {t : Nat} :
    l.lookup t = none ↔ t ∉ l.map Prod.fst := by
  induction l with
  | nil => simp [List.lookup]
  | cons kv l ih =>
      obtain ⟨k, v⟩ := kv
      by_cases h : t = k
      · subst h
        rw [lookup_cons_self]
        simp
      · rw [lookup_cons_ne v h]
        simp only [List.map_cons, List.mem_cons]
        rw [ih]
        simp [h]

theorem lookup_mem_snd {l : List (Nat × Nat)} {t v : Nat}
    (h : l.lookup t = some v) : v ∈ l.map Prod.snd := by
  induction l with
  | nil => simp [List.lookup] at h
  | cons kv l ih =>
      obtain ⟨k, w⟩ := kv
      by_cases ht : t = k
      · subst ht
        rw [lookup_cons_self] at h
        simp only [Option.some.injEq] at h
        simp [h]
      · rw [lookup_cons_ne w ht] at h
        simp [ih h]

theorem lookup_inj {l : List (Nat × Nat)} (hk : (l.map Prod.fst).Nodup)
    (hv : (l.map Prod.snd).Nodup) {t u a b : Nat}
    (ht : l.lookup t = some a) (hu : l.lookup u = some b) (hne : t ≠ u) :
    a ≠ b := by
  induction l with
  | nil => simp [List.lookup] at ht
  | cons kv l ih =>
      obtain ⟨k, w⟩ := kv
      simp only [List.map_cons, List.nodup_cons] at hk hv
      by_cases h1 : t = k
      · subst h1
        rw [lookup_cons_self] at ht
        have hb : b ∈ l.map Prod.snd := by
          rw [lookup_cons_ne w (fun hc => hne hc.symm)] at hu
          exact lookup_mem_snd hu
        have ha : a = w := by simpa using ht.symm
        subst ha
        intro hcon
        exact hv.1 (hcon ▸ hb)
      · rw [lookup_cons_ne w h1] at ht
        by_cases h2 : u = k
        · subst h2
          rw [lookup_cons_self] at hu
          have hbw : b = w := by simpa using hu.symm
          subst hbw
          intro hcon
          exact hv.1 (hcon ▸ lookup_mem_snd ht)
        · rw [lookup_cons_ne w h2] at hu
          exact ih hk.2 hv.2 ht hu

/-- Invariant of every reachable allocator state: the counter equals the
number of assigned types modulo `2^16`, ids were handed out sequentially
(the k-th distinct type got `k % 2^16`), and no type token is memoised
twice. -/
def AllocInv (s : AllocState) : Prop :=
  s.counter = s.memo.length % UINT16_MOD ∧
  s.memo.map Prod.snd =
    (List.range s.memo.length).reverse.map (fun k => k % UINT16_MOD) ∧
  (s.memo.map Prod.fst).Nodup

theorem allocInv_start : AllocInv allocStart := by
  refine ⟨rfl, ?_, ?_⟩ <;> simp [allocStart]

theorem allocInv_idOf {s : AllocState} (t : Nat) (h : AllocInv s) :
    AllocInv (idOf s t).2 := by
  unfold idOf
  cases hl : s.memo.lookup t with
  | some i => exact h
  | none =>
      obtain ⟨h1, h2, h3⟩ := h
      refine ⟨?_, ?_, ?_⟩
      · simp only [List.length_cons]
        rw [h1, Nat.mod_add_mod]
      · simp only [List.map_cons, List.length_cons]
        rw [h1, h2, List.range_succ, List.reverse_append]
        simp
      · simp only [List.map_cons, List.nodup_cons]
        exact ⟨lookup_eq_none_iff.mp hl, h3⟩

theorem allocInv_foldl (reqs : List Nat) :
    ∀ s : AllocState, AllocInv s →
      AllocInv (reqs.foldl (fun s t => (idOf s t).2) s) := by
  induction reqs with
  | nil => intro s h; exact h
  | cons t reqs ih =>
      intro s h
      exact ih _ (allocInv_idOf t h)

theorem allocInv_runReqs (reqs : List Nat) : AllocInv (runReqs reqs) :=
  allocInv_foldl reqs allocStart allocInv_start

theorem map_mod_eq_self {M : Nat} {l : List Nat} (h : ∀ k ∈ l, k < M) :
    l.map (fun k => k % M) = l := by
  induction l with
  | nil => rfl
  | cons a l ih =>
      simp only [List.map_cons]
      rw [Nat.mod_eq_of_lt (h a (by simp)), ih (fun k hk => h k (by simp [hk]))]

theorem inv_values_nodup {s : AllocState} (h : AllocInv s)
    (hlen : s.memo.length ≤ UINT16_MOD) : (s.memo.map Prod.snd).Nodup := by
  rw [h.2.1, map_mod_eq_self (by intro k hk; rw [List.mem_reverse, List.mem_range] at hk; omega)]
  exact List.nodup_reverse.mpr (List.nodup_range _)

theorem idOf_of_lookup {s : AllocState} {t i : Nat}
    (h : s.memo.lookup t = some i) : idOf s t = (i, s) := by
  unfold idOf
  rw [h]

theorem runReqs_range_spec (n : Nat) :
    (runReqs (List.range n)).memo.length = n ∧
    ∀ i, (runReqs (List.range n)).memo.lookup i =
      if i < n then some (i % UINT16_MOD) else none := by
  induction n with
  | zero =>
      refine ⟨rfl, ?_⟩
      intro i
      simp [runReqs, allocStart, List.lookup]
  | succ n ih =>
      obtain ⟨ihl, ihk⟩ := ih
      have hstep : runReqs (List.range (n + 1)) =
          (idOf (runReqs (List.range n)) n).2 := by
        simp [runReqs, List.range_succ, List.foldl_append]
      have hnone : (runReqs (List.range n)).memo.lookup n = none := by
        rw [ihk]
        simp
      have hcnt : (runReqs (List.range n)).counter = n % UINT16_MOD := by
        have hinv := allocInv_runReqs (List.range n)
        rw [hinv.1, ihl]
      rw [hstep]
      unfold idOf
      rw [hnone]
      refine ⟨by simp [ihl], ?_⟩
      intro i
      by_cases hin : i = n
      · subst hin
        rw [lookup_cons_self, hcnt]
        simp
      · rw [lookup_cons_ne _ hin, ihk]
        by_cases hilt : i < n
        · rw [if_pos hilt, if_pos (by omega)]
        · rw [if_neg hilt, if_neg (by omega)]

end AllocHelpers

section ConcreteStates

theorem set_oob {β : Type} {l : List β} {n : Nat} (a : β) (h : l.length ≤ n) :
    l.set n a = l := by
  induction l generalizing n with
  | nil => rfl
  | cons b l ih =>
      cases n with
      | zero => simp at h
      | succ n =>
          simp only [List.set_cons_succ]
          rw [ih (by simpa using h)]

/-- A pool of `Nat` components reached by `addComponent emptyPool 1` followed
by writing `5` through the returned reference: entity `1` holds component
value `5`. -/
def wpool : PoolState Nat :=
  ⟨[⟨5, 1⟩], (List.replicate 8192 NULL_INDEX).set 1 0, [], true⟩

theorem wpool_sparse_length : wpool.sparse.length = 8192 := by
  show ((List.replicate 8192 NULL_INDEX).set 1 0).length = 8192
  rw [List.length_set, List.length_replicate]

theorem wpool_sparse_getD_1 : wpool.sparse.getD 1 0 = 0 := by
  show ((List.replicate 8192 NULL_INDEX).set 1 0).getD 1 0 = 0
  exact getD_set_self _ _ (by rw [List.length_replicate]; omega)

theorem wpool_sparse_getD_ne {x : Nat} (h : x ≠ 1) (hx : x < 8192) :
    wpool.sparse.getD x 0 = NULL_INDEX := by
  show ((List.replicate 8192 NULL_INDEX).set 1 0).getD x 0 = NULL_INDEX
  rw [getD_set_ne _ _ h, getD_replicate _ _ hx]

theorem has_wpool_1 : hasComponent wpool 1 = true := by
  rw [hasComponent_true_iff, wpool_sparse_length, wpool_sparse_getD_1]
  refine ⟨by omega, by decide⟩

theorem has_wpool_2 : hasComponent wpool 2 = false := by
  rw [hasComponent_false_iff, wpool_sparse_length,
    wpool_sparse_getD_ne (by decide) (by decide)]
  intro hcon
  exact hcon.2 rfl

theorem wf_wpool : WFPool wpool := by
  refine ⟨?_, ?_, ?_⟩
  · intro x hx hnn
    rw [wpool_sparse_length] at hx
    by_cases hx1 : x = 1
    · subst hx1
      rw [wpool_sparse_getD_1]
      exact ⟨by decide, rfl⟩
    · exact absurd (wpool_sparse_getD_ne hx1 hx) hnn
  · intro i hi
    have hlen : wpool.dense.length = 1 := rfl
    rw [hlen] at hi
    have hi0 : i = 0 := by omega
    subst hi0
    have hent : (wpool.dense.getD 0 dfltRec).entity = 1 := rfl
    rw [hent, wpool_sparse_length, wpool_sparse_getD_1]
    exact ⟨by omega, rfl⟩
  · show wpool.dense.length < NULL_INDEX
    decide

/-- The pool obtained from `wpool` by `addComponent 2`. -/
def wpool2 : PoolState Nat :=
  ⟨[⟨5, 1⟩, ⟨0, 2⟩], ((List.replicate 8192 NULL_INDEX).set 1 0).set 2 1, [], true⟩

theorem add_wpool_2 : addComponent wpool 2 "T" = .ok wpool2 := by
  rw [addComponent_of_not_has _ has_wpool_2, wpool_sparse_length]
  rw [if_neg (by decide)]
  rfl

/-- The state the model assigns to the very first `addComponent(8192)` on a
fresh pool: the sparse array was grown only to the floor `8192`, so the
write of the dense index at `sparse[8192]` fell outside it (out-of-bounds
write in the C++, a no-op `List.set` here) and only the dense record was
created. -/
def bugPool : PoolState Nat :=
  ⟨[⟨0, 8192⟩], (List.replicate 8192 NULL_INDEX).set 8192 0, [], true⟩

theorem add_emptyPool_8192 :
    addComponent (emptyPool : PoolState Nat) 8192 "T" = .ok bugPool := by
  rw [addComponent_of_not_has _ (by decide)]
  rw [if_pos (by decide)]
  rfl

theorem bugPool_sparse_eq : bugPool.sparse = List.replicate 8192 NULL_INDEX := by
  show (List.replicate 8192 NULL_INDEX).set 8192 0 = _
  exact set_oob _ (by rw [List.length_replicate])

theorem bugPool_sparse_length : bugPool.sparse.length = 8192 := by
  rw [bugPool_sparse_eq, List.length_replicate]

theorem has_bugPool (x : Nat) : hasComponent bugPool x = false := by
  rw [hasComponent_false_iff, bugPool_sparse_length]
  rintro ⟨hlt, hnn⟩
  rw [bugPool_sparse_eq, getD_replicate _ _ hlt] at hnn
  exact hnn rfl

/-- A registry of `Nat`-component pools with one registered type at TypeId 3
whose pool is `wpool`. -/
def wreg : RegistryState Nat :=
  ⟨(List.replicate UINT16_MAX (none : Option (PoolState Nat))).set 3 (some wpool)⟩

theorem wreg_slot_3 : wreg.pool_list.getD 3 none = some wpool := by
  show ((List.replicate UINT16_MAX none).set 3 (some wpool)).getD 3 none = _
  exact getD_set_self _ _ (by rw [List.length_replicate]; decide)

theorem wreg_slot_5 : wreg.pool_list.getD 5 none = none := by
  show ((List.replicate UINT16_MAX none).set 3 (some wpool)).getD 5 none = _
  rw [getD_set_ne _ _ (by decide), getD_replicate _ _ (by decide)]

theorem componentExists_wreg_3 : componentExists wreg 3 = true := by
  rw [componentExists_iff_slot]
  exact ⟨wpool, wreg_slot_3⟩

theorem componentExists_wreg_5 : componentExists wreg 5 = false := by
  rw [componentExists_false_iff_slot]
  exact wreg_slot_5

theorem disable_wreg_slot_3 :
    (registryDisableEntity wreg 1).pool_list.getD 3 none =
      some (removeComponent wpool 1) := by
  rw [registryDisable_getD, wreg_slot_3]
  rfl

theorem wreg_length : wreg.pool_list.length = UINT16_MAX := by
  show ((List.replicate UINT16_MAX (none : Option (PoolState Nat))).set 3
    (some wpool)).length = UINT16_MAX
  rw [List.length_set, List.length_replicate]

theorem register_wreg_5 :
    registerComponent wreg 5 =
      (true, ⟨wreg.pool_list.set 5 (some emptyPool)⟩) := by
  unfold registerComponent
  rw [if_neg (by rw [componentExists_wreg_5]; simp)]

end ConcreteStates

section Claims

/-- C2: the claim states that `addComponent(e)` on a pool whose sparse range
does not cover `e` grows the sparse array far enough that the write of the
dense index at `sparse[e]` lands in bounds, the initial floor being used
only "when that floor already covers e".  The code instead grows an empty
sparse array to the fixed floor `8192` regardless of `e`
(`sparseGrow`, Component.hpp:211-218), so the very first
`addComponent(8192)` writes `sparse[8192]` one past the end of the
8192-slot array — an out-of-bounds `std::vector` write (UB) in the C++,
a no-op `List.set` in the model: the pool ends with every sparse slot still
absent while the dense record exists. -/
theorem C2_sparseGrow_floor_out_of_bounds :
    sparseGrowSize 0 8192 = 8192 ∧
    addComponent (emptyPool : PoolState Nat) 8192 "T" = .ok bugPool ∧
    bugPool.sparse.length = 8192 ∧
    bugPool.sparse = List.replicate 8192 NULL_INDEX ∧
    hasComponent bugPool 8192 = false :=
  ⟨rfl, add_emptyPool_8192, bugPool_sparse_length, bugPool_sparse_eq,
    has_bugPool 8192⟩

/-- C3: the sparse/dense bidirectional invariant is claimed to hold after
every operation sequence.  The growth bug of C2 breaks it on the
single-operation sequence `addComponent(8192)` on a fresh pool: afterwards
the dense array holds one record owned by entity `8192`, yet no entity has
the component (`hasComponent` is false everywhere), so the dense length
(1) differs from the number of held entities (0) and `WFPool` fails. -/
theorem C3_invariant_broken_by_growth_bug :
    addComponent (emptyPool : PoolState Nat) 8192 "T" = .ok bugPool ∧
    bugPool.dense.length = 1 ∧
    (bugPool.dense.getD 0 dfltRec).entity = 8192 ∧
    (∀ x, hasComponent bugPool x = false) ∧
    ¬ WFPool bugPool := by
  refine ⟨add_emptyPool_8192, rfl, rfl, has_bugPool, ?_⟩
  rintro ⟨-, h2, -⟩
  obtain ⟨ha, -⟩ := h2 0 (by decide)
  rw [show (bugPool.dense.getD 0 dfltRec).entity = 8192 from rfl,
    bugPool_sparse_length] at ha
  omega

/-- C4: `addComponent(e)` on an entity that already has the component fails
with `ComponentAlreadyAttached` — and it fails exactly when
`hasComponent(e)` held.  The throw fires before any mutation
(Component.hpp:121-122), which the `Except` embedding renders as returning
the error with no successor state: a failed add leaves the pool, including
the existing component value, untouched. -/
theorem C4_double_attach_rejected (s : PoolState α) (e : Nat) (tyName : String) :
    (hasComponent s e = true →
      addComponent s e tyName = .error (.componentAlreadyAttached e tyName)) ∧
    ((∃ err, addComponent s e tyName = .error err) ↔ hasComponent s e = true) := by
  constructor
  · exact addComponent_of_has tyName
  · constructor
    · rintro ⟨err, herr⟩
      by_cases hc : hasComponent s e = true
      · exact hc
      · rw [addComponent_of_not_has tyName (by simpa using hc)] at herr
        exact absurd herr (by simp)
    · intro h
      exact ⟨_, addComponent_of_has tyName h⟩

theorem C4_witness :
    hasComponent wpool 1 = true ∧
    addComponent wpool 1 "T" = .error (.componentAlreadyAttached 1 "T") :=
  ⟨has_wpool_1, (C4_double_attach_rejected wpool 1 "T").1 has_wpool_1⟩

/-- C5: `Registry::disableEntity(e)` visits every occupied slot (skipping
`nullptr` slots) and calls the pool's `disableEntity(e)`, which is exactly
`removeComponent(e)`; afterwards every pool held by the registry reports
`hasComponent(e) = false`, whether or not it ever held `e`. -/
theorem C5_broadcast_disable (r : RegistryState α) (e : Nat) :
    (∀ p : PoolState α, disableEntity p e = removeComponent p e) ∧
    (∀ tid p, (registryDisableEntity r e).pool_list.getD tid none = some p →
      hasComponent p e = false) := by
  refine ⟨fun p => rfl, ?_⟩
  intro tid p h
  rw [registryDisable_getD] at h
  cases hsl : r.pool_list.getD tid none with
  | none =>
      rw [hsl] at h
      exact absurd h (by simp)
  | some q =>
      rw [hsl] at h
      have hp : p = disableEntity q e := by simpa using h.symm
      rw [hp]
      exact hasComponent_removeComponent_self q e

theorem C5_witness :
    (registryDisableEntity wreg 1).pool_list.getD 3 none =
      some (removeComponent wpool 1) ∧
    hasComponent (removeComponent wpool 1) 1 = false :=
  ⟨disable_wreg_slot_3,
    (C5_broadcast_disable wreg 1).2 3 (removeComponent wpool 1)
      disable_wreg_slot_3⟩

/-- C6: `removeComponent(e)` is a total no-op when `hasComponent(e)` is
false (including ids the pool has never seen), and removing twice in a row
equals removing once — after the first removal `hasComponent(e)` is false,
so the second call takes the early-return branch. -/
theorem C6_remove_idempotent (s : PoolState α) (e : Nat) :
    (hasComponent s e = false → removeComponent s e = s) ∧
    removeComponent (removeComponent s e) e = removeComponent s e :=
  ⟨removeComponent_of_not_has,
    removeComponent_of_not_has (hasComponent_removeComponent_self s e)⟩

theorem C6_witness :
    (hasComponent wpool 2 = false ∧ removeComponent wpool 2 = wpool) ∧
    removeComponent (removeComponent wpool 1) 1 = removeComponent wpool 1 :=
  ⟨⟨has_wpool_2, (C6_remove_idempotent wpool 2).1 has_wpool_2⟩,
    (C6_remove_idempotent wpool 1).2⟩

/-- C7: `getPool<T>()` fails with `UnregisteredComponent` carrying `T`'s
name exactly when `T`'s slot is unoccupied; for an occupied slot it returns
the pool stored there and never fails, and immediately after a successful
registration it returns the freshly constructed empty pool. -/
theorem C7_getPool_spec (r : RegistryState α) (tid : Nat) (tyName : String) :
    (componentExists r tid = false →
      getPool r tid tyName = .error (.unregisteredComponent tyName)) ∧
    (∀ p, r.pool_list.getD tid none = some p → getPool r tid tyName = .ok p) ∧
    (componentExists r tid = true → ∃ p, getPool r tid tyName = .ok p) ∧
    (∀ r', tid < r.pool_list.length → registerComponent r tid = (true, r') →
      getPool r' tid tyName = .ok emptyPool) := by
  refine ⟨?_, ?_, ?_, ?_⟩
  · intro h
    exact getPool_of_empty_slot tyName (componentExists_false_iff_slot.mp h)
  · intro p h
    exact getPool_of_slot tyName h
  · intro h
    obtain ⟨p, hp⟩ := componentExists_iff_slot.mp h
    exact ⟨p, getPool_of_slot tyName hp⟩
  · intro r' hlt hreg
    unfold registerComponent at hreg
    by_cases hc : componentExists r tid
    · rw [if_pos hc] at hreg
      exact absurd hreg (by simp)
    · rw [if_neg hc] at hreg
      have h2 : (⟨r.pool_list.set tid (some emptyPool)⟩ : RegistryState α) = r' :=
        congrArg Prod.snd hreg
      rw [← h2]
      apply getPool_of_slot
      show (r.pool_list.set tid (some emptyPool)).getD tid none = some emptyPool
      exact getD_set_self _ _ hlt

theorem C7_witness :
    componentExists wreg 5 = false ∧
    getPool wreg 5 "Velocity" = .error (.unregisteredComponent "Velocity") ∧
    getPool wreg 3 "Position" = .ok wpool ∧
    getPool (⟨wreg.pool_list.set 5 (some emptyPool)⟩ : RegistryState Nat)
      5 "Velocity" = .ok emptyPool := by
  refine ⟨componentExists_wreg_5,
    (C7_getPool_spec wreg 5 "Velocity").1 componentExists_wreg_5,
    (C7_getPool_spec wreg 3 "Position").2.1 wpool wreg_slot_3, ?_⟩
  exact (C7_getPool_spec wreg 5 "Velocity").2.2.2 _
    (by rw [wreg_length]; decide) register_wreg_5

/-- C8: `registerComponent<T>()` returns `false` and leaves the registry
unchanged when `T`'s slot is already occupied; otherwise it stores a newly
constructed empty pool at `T`'s slot and returns `true`.  Registration
never replaces an existing pool: every occupied slot keeps its pool. -/
theorem C8_registerComponent_spec (r : RegistryState α) (tid : Nat) :
    (componentExists r tid = true → registerComponent r tid = (false, r)) ∧
    (componentExists r tid = false →
      registerComponent r tid = (true, ⟨r.pool_list.set tid (some emptyPool)⟩)) ∧
    (∀ tid' p, r.pool_list.getD tid' none = some p →
      (registerComponent r tid).2.pool_list.getD tid' none = some p) := by
  refine ⟨?_, ?_, ?_⟩
  · intro h
    unfold registerComponent
    rw [if_pos h]
  · intro h
    unfold registerComponent
    rw [if_neg (by simp [h])]
  · intro tid' p hp
    unfold registerComponent
    by_cases hc : componentExists r tid
    · rw [if_pos hc]
      exact hp
    · rw [if_neg hc]
      show (r.pool_list.set tid (some emptyPool)).getD tid' none = some p
      by_cases ht : tid' = tid
      · subst ht
        exfalso
        apply hc
        rw [componentExists_iff_slot]
        exact ⟨p, hp⟩
      · rw [getD_set_ne _ _ ht]
        exact hp

theorem C8_witness :
    componentExists wreg 3 = true ∧
    registerComponent wreg 3 = (false, wreg) ∧
    componentExists wreg 5 = false ∧
    registerComponent wreg 5 = (true, ⟨wreg.pool_list.set 5 (some emptyPool)⟩) :=
  ⟨componentExists_wreg_3,
    (C8_registerComponent_spec wreg 3).1 componentExists_wreg_3,
    componentExists_wreg_5,
    (C8_registerComponent_spec wreg 5).2.1 componentExists_wreg_5⟩

/-- Pool after `addComponent 3` on a fresh pool (spec scenario, first step). -/
def spoolA : PoolState Nat :=
  ⟨[⟨0, 3⟩], (List.replicate 8192 NULL_INDEX).set 3 0, [], true⟩

/-- Pool after `addComponent 3` then `addComponent 1` (spec scenario):
dense order is insertion order `[3, 1]`, not id order. -/
def spoolB : PoolState Nat :=
  ⟨[⟨0, 3⟩, ⟨0, 1⟩], ((List.replicate 8192 NULL_INDEX).set 3 0).set 1 1, [], true⟩

/-- Pool after the swap-remove of entity `3` from `spoolB`. -/
def srem : PoolState Nat :=
  ⟨[⟨0, 1⟩],
    ((((List.replicate 8192 NULL_INDEX).set 3 0).set 1 1).set 1 0).set 3 NULL_INDEX,
    [], true⟩

theorem spoolA_sparse_length : spoolA.sparse.length = 8192 := by
  show ((List.replicate 8192 NULL_INDEX).set 3 0).length = 8192
  rw [List.length_set, List.length_replicate]

theorem has_spoolA_1_false : hasComponent spoolA 1 = false := by
  rw [hasComponent_false_iff]
  rintro ⟨-, hnn⟩
  apply hnn
  show ((List.replicate 8192 NULL_INDEX).set 3 0).getD 1 0 = NULL_INDEX
  rw [getD_set_ne _ _ (by decide), getD_replicate _ _ (by decide)]

theorem add_emptyPool_3 :
    addComponent (emptyPool : PoolState Nat) 3 "Position" = .ok spoolA := by
  rw [addComponent_of_not_has _ (by decide), if_pos (by decide)]
  rfl

theorem add_spoolA_1 : addComponent spoolA 1 "Position" = .ok spoolB := by
  rw [addComponent_of_not_has _ has_spoolA_1_false, spoolA_sparse_length,
    if_neg (by decide)]
  rfl

theorem spoolB_sparse_length : spoolB.sparse.length = 8192 := by
  show (((List.replicate 8192 NULL_INDEX).set 3 0).set 1 1).length = 8192
  rw [List.length_set, List.length_set, List.length_replicate]

theorem spoolB_sparse_getD_1 : spoolB.sparse.getD 1 0 = 1 := by
  show (((List.replicate 8192 NULL_INDEX).set 3 0).set 1 1).getD 1 0 = 1
  apply getD_set_self
  rw [List.length_set, List.length_replicate]
  omega

theorem spoolB_sparse_getD_3 : spoolB.sparse.getD 3 0 = 0 := by
  show (((List.replicate 8192 NULL_INDEX).set 3 0).set 1 1).getD 3 0 = 0
  rw [getD_set_ne _ _ (by decide)]
  apply getD_set_self
  rw [List.length_replicate]
  omega

theorem spoolB_sparse_getD_2 : spoolB.sparse.getD 2 0 = NULL_INDEX := by
  show (((List.replicate 8192 NULL_INDEX).set 3 0).set 1 1).getD 2 0 = NULL_INDEX
  rw [getD_set_ne _ _ (by decide), getD_set_ne _ _ (by decide),
    getD_replicate _ _ (by decide)]

theorem has_spoolB_1 : hasComponent spoolB 1 = true := by
  rw [hasComponent_true_iff, spoolB_sparse_length, spoolB_sparse_getD_1]
  exact ⟨by omega, by decide⟩

theorem has_spoolB_3 : hasComponent spoolB 3 = true := by
  rw [hasComponent_true_iff, spoolB_sparse_length, spoolB_sparse_getD_3]
  exact ⟨by omega, by decide⟩

theorem has_spoolB_2 : hasComponent spoolB 2 = false := by
  rw [hasComponent_false_iff, spoolB_sparse_length, spoolB_sparse_getD_2]
  rintro ⟨-, hnn⟩
  exact hnn rfl

theorem rebuilt_spoolB : rebuiltCacheIntended spoolB = [1, 3] := by
  show (spoolB.dense.map (fun r => r.entity)).mergeSort (fun a b => a ≤ b) = [1, 3]
  rw [show spoolB.dense.map (fun r => r.entity) = [3, 1] from rfl]
  have h := List.mergeSort_eq_insertionSort (r := (· ≤ ·)) ([3, 1] : List Nat)
  simpa [List.insertionSort, List.orderedInsert] using h

theorem remove_spoolB_3 : removeComponent spoolB 3 = srem := by
  rw [removeComponent_of_has_swap has_spoolB_3
    (by rw [spoolB_sparse_getD_3]; decide)]
  rfl

theorem rebuilt_srem : rebuiltCacheIntended srem = [1] := by
  show (srem.dense.map (fun r => r.entity)).mergeSort (fun a b => a ≤ b) = [1]
  rw [show srem.dense.map (fun r => r.entity) = [1] from rfl]
  exact List.mergeSort_eq_self (by decide)

theorem active_srem : (getActiveEntitiesIntended srem).1 = [1] := by
  unfold getActiveEntitiesIntended
  rw [if_pos (show srem.dirty = true by rfl)]
  exact rebuilt_srem

theorem active_srem_clears_dirty :
    (getActiveEntitiesIntended srem).2.dirty = false := by
  unfold getActiveEntitiesIntended
  rw [if_pos (show srem.dirty = true by rfl)]

/-- On any well-formed pool, the intended cache rebuild is exactly the
ascending-sorted set of entities holding the component: it is sorted, and an
entity appears in it iff `hasComponent` is true for it. -/
theorem intended_cache_correct (s : PoolState α) (hwf : WFPool s) :
    (rebuiltCacheIntended s).Sorted (· ≤ ·) ∧
    ∀ x, x ∈ rebuiltCacheIntended s ↔ hasComponent s x = true := by
  obtain ⟨hw1, hw2, hw3⟩ := hwf
  constructor
  · exact List.sorted_mergeSort' _
  · intro x
    show x ∈ (s.dense.map (fun r => r.entity)).mergeSort (fun a b => a ≤ b) ↔ _
    rw [List.Perm.mem_iff (List.mergeSort_perm _ _)]
    constructor
    · intro hx
      rw [List.mem_map] at hx
      obtain ⟨r, hr, hrx⟩ := hx
      obtain ⟨i, hi, hget⟩ := List.getElem_of_mem hr
      have hgD : s.dense.getD i dfltRec = r := by
        rw [List.getD_eq_getElem _ _ hi, hget]
      obtain ⟨h1, h2⟩ := hw2 i hi
      rw [hgD, hrx] at h1 h2
      rw [hasComponent_true_iff]
      refine ⟨h1, ?_⟩
      rw [h2]
      omega
    · intro hx
      obtain ⟨hlt, hnn⟩ := (hasComponent_true_iff s x).mp hx
      obtain ⟨h1, h2⟩ := hw1 x hlt hnn
      rw [List.mem_map]
      refine ⟨s.dense.getD (s.sparse.getD x 0) dfltRec, ?_, h2⟩
      rw [List.getD_eq_getElem _ _ h1]
      exact List.getElem_mem _

/-- C1: the claim describes `getActiveEntities()` as returning the cached,
ascending-id-sorted list of entities holding the component, rebuilt when
dirty.  The source cannot do this: line 181 of Component.hpp assigns
`m_data.dense_components` (a `std::vector<DenseComponent<T>>`) to
`m_cached_entities` (a `std::vector<EntityID>`), which does not type-check
(and `std::sort` is then applied to records without `operator<`), so any
instantiation of `getActiveEntities` fails to compile.  This theorem runs
the spec scenario through `getActiveEntitiesIntended`, the rebuild the
documentation describes (copy the ids, sort ascending): after adding 3 then
1 the view is `[1, 3]`, after the swap-remove of 3 it is `[1]`, mutations
set the dirty flag and the rebuild clears it. -/
theorem C1_intended_cache_scenario :
    addComponent (emptyPool : PoolState Nat) 3 "Position" = .ok spoolA ∧
    addComponent spoolA 1 "Position" = .ok spoolB ∧
    hasComponent spoolB 1 = true ∧
    hasComponent spoolB 3 = true ∧
    hasComponent spoolB 2 = false ∧
    rebuiltCacheIntended spoolB = [1, 3] ∧
    removeComponent spoolB 3 = srem ∧
    srem.dirty = true ∧
    (getActiveEntitiesIntended srem).1 = [1] ∧
    (getActiveEntitiesIntended srem).2.dirty = false :=
  ⟨add_emptyPool_3, add_spoolA_1, has_spoolB_1, has_spoolB_3, has_spoolB_2,
    rebuilt_spoolB, remove_spoolB_3, rfl, active_srem, active_srem_clears_dirty⟩

/-- C9 counterexample: the `uint16_t` counter of `ComponentTypeId` wraps
modulo `2^16`, so after 65536 distinct types have been assigned ids the
allocator hands out already-used identifiers again: requesting 65537
distinct types in order gives type 0 and type 65536 the same id `0`,
refuting "distinct types always receive different identifiers" and "never
reused" as stated. -/
theorem C9_counterexample :
    (runReqs (List.range 65537)).memo.lookup 0 = some 0 ∧
    (runReqs (List.range 65537)).memo.lookup 65536 = some 0 ∧
    (0 : Nat) ≠ 65536 := by
  have hk := (runReqs_range_spec 65537).2
  refine ⟨?_, ?_, by decide⟩
  · rw [hk 0, if_pos (by decide)]
    rfl
  · rw [hk 65536, if_pos (by decide)]
    rfl

/-- C9 amended: as long as at most `2^16` distinct types have been
requested, distinct types hold distinct identifiers; a repeated request
returns the memoised identifier and leaves the allocator state unchanged;
and the ids on record are exactly the sequential counter values modulo
`2^16` in order of first request.  (Beyond `2^16` distinct types the
16-bit counter wraps and ids repeat, as `C9_counterexample` shows.) -/
theorem C9_amended_typeid_unique (reqs : List Nat) (t u a b : Nat)
    (hlen : (runReqs reqs).memo.length ≤ UINT16_MOD)
    (ht : (runReqs reqs).memo.lookup t = some a)
    (hu : (runReqs reqs).memo.lookup u = some b)
    (hne : t ≠ u) :
    a ≠ b ∧ idOf (runReqs reqs) t = (a, runReqs reqs) ∧
    (runReqs reqs).memo.map Prod.snd =
      (List.range (runReqs reqs).memo.length).reverse.map
        (fun k => k % UINT16_MOD) := by
  have hinv := allocInv_runReqs reqs
  exact ⟨lookup_inj hinv.2.2 (inv_values_nodup hinv hlen) ht hu hne,
    idOf_of_lookup ht, hinv.2.1⟩

theorem C9_witness :
    (runReqs [10, 20]).memo.length ≤ UINT16_MOD ∧
    (runReqs [10, 20]).memo.lookup 10 = some 0 ∧
    (runReqs [10, 20]).memo.lookup 20 = some 1 ∧
    (10 : Nat) ≠ 20 ∧ (0 : Nat) ≠ 1 ∧
    idOf (runReqs [10, 20]) 10 = (0, runReqs [10, 20]) := by
  refine ⟨by decide, by decide, by decide, by decide, ?_, ?_⟩
  · exact (C9_amended_typeid_unique [10, 20] 10 20 0 1 (by decide) (by decide)
      (by decide) (by decide)).1
  · exact (C9_amended_typeid_unique [10, 20] 10 20 0 1 (by decide) (by decide)
      (by decide) (by decide)).2.1

/-- C10: on a well-formed pool, a successful `addComponent(e)` and any
`removeComponent(e)` leave both the membership (`hasComponent`) and the
stored component value of every other entity `e' ≠ e` unchanged — in
particular the swap-remove moves the last dense record without altering
that record's component value or its entity's membership. -/
theorem C10_frame_effects (s s' : PoolState α) (e e' : Nat) (tyName : String)
    (hwf : WFPool s) (hne : e' ≠ e) :
    (addComponent s e tyName = .ok s' →
      hasComponent s' e' = hasComponent s e' ∧
        (hasComponent s e' = true → getComponent s' e' = getComponent s e')) ∧
    (hasComponent (removeComponent s e) e' = hasComponent s e' ∧
      (hasComponent s e' = true →
        getComponent (removeComponent s e) e' = getComponent s e')) :=
  ⟨fun hok => add_preserves_other hwf hne hok, remove_preserves_other hwf hne⟩

theorem C10_witness :
    (hasComponent wpool2 1 = hasComponent wpool 1 ∧
      (hasComponent wpool 1 = true → getComponent wpool2 1 = getComponent wpool 1)) ∧
    (hasComponent (removeComponent wpool 2) 1 = hasComponent wpool 1 ∧
      (hasComponent wpool 1 = true →
        getComponent (removeComponent wpool 2) 1 = getComponent wpool 1)) :=
  ⟨(C10_frame_effects wpool wpool2 2 1 "T" wf_wpool (by decide)).1 add_wpool_2,
    (C10_frame_effects wpool wpool2 2 1 "T" wf_wpool (by decide)).2⟩

end Claims

end ECS
